import Mathlib

/-!
# Verification of the rwkv.cpp public API layer

A shallow embedding of `src/rwkv.cpp` (the public API functions of the
rwkv.cpp inference runtime) together with models, taken from the
specification, of the parts of the repository that live in `*.inc` include
files not present under `src/` (error-handling macros, model loading, graph
building, evaluation).

Conventions:
* C `uint32_t` / `size_t` fields are `Nat`; where a `size_t` computation
  could overflow, the embedding reduces modulo `2 ^ 64` exactly as the
  machine does, and theorems carry explicit no-overflow bounds.
* Fallible C code (allocation, loading) is modelled with explicit outcome
  types; dereferencing a null pointer is a distinguished crash outcome.
* Heap state (the reference-counted model shared between contexts, the
  global and per-context error slots) is explicit state threaded through
  the operations.
-/

/-- `size_t` is 64 bits wide on every platform the file supports
(the `static_assert`s at src/rwkv.cpp lines 37-38 require 64-bit offsets). -/
def SIZE_T_MOD : Nat := 2 ^ 64

/-- The model file header (spec section 3: magic constant, format version,
vocabulary size, embedding width, layer count, default element type).
The struct itself is declared in `rwkv_file_format.inc`, not under `src/`;
the fields are those `src/rwkv.cpp` reads: `header.n_vocab`,
`header.n_embed`, `header.n_layer`. -/
structure rwkv_file_header where
  magic : Nat
  version : Nat
  n_vocab : Nat
  n_embed : Nat
  n_layer : Nat
  data_type : Nat
deriving DecidableEq

/-- The loaded model as `src/rwkv.cpp` uses it: the immutable header plus
the derived architecture fields `arch_version_major` and `head_size`
(struct declared in `rwkv_model_loading.inc`, not under `src/`; fields are
those dereferenced by `rwkv_get_state_len` and the accessors). -/
structure rwkv_model where
  header : rwkv_file_header
  arch_version_major : Nat
  arch_version_minor : Nat
  head_size : Nat
deriving DecidableEq

/-- The per-context data the pure accessor functions of `src/rwkv.cpp`
read: the referenced model (immutable), the thread count and the token
length of the last multi-step graph built. -/
structure rwkv_context where
  model : rwkv_model
  n_threads : Nat
  last_used_sequence_length : Nat
deriving DecidableEq

/-- Embedding of `rwkv_get_state_len` (src/rwkv.cpp lines 121-129):
`(size_t) header.n_embed * (2 + ctx->model->head_size) * (size_t) header.n_layer`
for `arch_version_major >= 5`, else `(size_t) header.n_embed * 5 * (size_t)
header.n_layer`; each `size_t` multiplication and the addition reduce
modulo `2 ^ 64`. -/
def rwkv_get_state_len (ctx : rwkv_context) : Nat :=
  let header := ctx.model.header
  if 5 ≤ ctx.model.arch_version_major then
    header.n_embed * ((2 + ctx.model.head_size) % SIZE_T_MOD) % SIZE_T_MOD
      * header.n_layer % SIZE_T_MOD
  else
    header.n_embed * 5 % SIZE_T_MOD * header.n_layer % SIZE_T_MOD

/-- Embedding of `rwkv_get_logits_len` (src/rwkv.cpp lines 131-134). -/
def rwkv_get_logits_len (ctx : rwkv_context) : Nat :=
  ctx.model.header.n_vocab

/-- Embedding of `rwkv_get_n_vocab` (src/rwkv.cpp lines 105-108). -/
def rwkv_get_n_vocab (ctx : rwkv_context) : Nat :=
  ctx.model.header.n_vocab

/-- Embedding of `rwkv_get_n_embed` (src/rwkv.cpp lines 110-113). -/
def rwkv_get_n_embed (ctx : rwkv_context) : Nat :=
  ctx.model.header.n_embed

/-- Embedding of `rwkv_get_n_layer` (src/rwkv.cpp lines 115-118). -/
def rwkv_get_n_layer (ctx : rwkv_context) : Nat :=
  ctx.model.header.n_layer

/-- A sample v5-architecture context used by concrete witnesses. -/
def sampleCtxV5 : rwkv_context :=
  { model :=
    { header :=
      { magic := 1734567537, version := 101, n_vocab := 65536,
        n_embed := 768, n_layer := 12, data_type := 0 },
      arch_version_major := 5, arch_version_minor := 2, head_size := 64 },
    n_threads := 4, last_used_sequence_length := 0 }

/-- A sample v4-architecture context used by concrete witnesses. -/
def sampleCtxV4 : rwkv_context :=
  { model :=
    { header :=
      { magic := 1734567537, version := 100, n_vocab := 50277,
        n_embed := 1024, n_layer := 24, data_type := 1 },
      arch_version_major := 4, arch_version_minor := 0, head_size := 0 },
    n_threads := 2, last_used_sequence_length := 0 }

/-- C1: for every loaded model whose state-length products do not overflow
`size_t`, `rwkv_get_state_len` returns
`n_embed * (2 + head_size) * n_layer` when `arch_version_major ≥ 5` and
`n_embed * 5 * n_layer` otherwise, and the result is a pure function of
`(arch_version_major, head_size, n_embed, n_layer)` alone. -/
theorem rwkv_get_state_len_spec (ctx : rwkv_context)
    (h1 : 2 + ctx.model.head_size < SIZE_T_MOD)
    (h2 : ctx.model.header.n_embed * (2 + ctx.model.head_size) < SIZE_T_MOD)
    (h3 : ctx.model.header.n_embed * (2 + ctx.model.head_size)
            * ctx.model.header.n_layer < SIZE_T_MOD)
    (h4 : ctx.model.header.n_embed * 5 < SIZE_T_MOD)
    (h5 : ctx.model.header.n_embed * 5 * ctx.model.header.n_layer < SIZE_T_MOD) :
    (5 ≤ ctx.model.arch_version_major →
      rwkv_get_state_len ctx =
        ctx.model.header.n_embed * (2 + ctx.model.head_size)
          * ctx.model.header.n_layer) ∧
    (ctx.model.arch_version_major < 5 →
      rwkv_get_state_len ctx =
        ctx.model.header.n_embed * 5 * ctx.model.header.n_layer) ∧
    (∀ ctx2 : rwkv_context,
      ctx2.model.arch_version_major = ctx.model.arch_version_major →
      ctx2.model.head_size = ctx.model.head_size →
      ctx2.model.header.n_embed = ctx.model.header.n_embed →
      ctx2.model.header.n_layer = ctx.model.header.n_layer →
      rwkv_get_state_len ctx2 = rwkv_get_state_len ctx) := by
  refine ⟨fun hv => ?_, fun hv => ?_, fun ctx2 ha hh he hl => ?_⟩
  · simp only [rwkv_get_state_len, if_pos hv, Nat.mod_eq_of_lt h1,
      Nat.mod_eq_of_lt h2, Nat.mod_eq_of_lt h3]
  · simp only [rwkv_get_state_len, if_neg (by omega : ¬ 5 ≤ ctx.model.arch_version_major),
      Nat.mod_eq_of_lt h4, Nat.mod_eq_of_lt h5]
  · simp only [rwkv_get_state_len, ha, hh, he, hl]

/-- Concrete check of C1: a 12-layer, 768-wide, head-size-64 v5 model has
state length `768 * (2 + 64) * 12`. -/
theorem rwkv_get_state_len_spec_witness :
    rwkv_get_state_len sampleCtxV5 = 768 * (2 + 64) * 12 :=
  (rwkv_get_state_len_spec sampleCtxV5 (by decide) (by decide) (by decide)
    (by decide) (by decide)).1 (by decide)

/-- C9: `rwkv_get_logits_len` returns exactly the header's vocabulary size
(the value `rwkv_get_n_vocab` reports), and both `rwkv_get_logits_len` and
`rwkv_get_state_len` depend only on the context's immutable model, hence
return the same value on every call made while that model is alive. -/
theorem rwkv_get_logits_len_spec (ctx : rwkv_context) :
    rwkv_get_logits_len ctx = rwkv_get_n_vocab ctx ∧
    rwkv_get_logits_len ctx = ctx.model.header.n_vocab ∧
    (∀ ctx2 : rwkv_context, ctx2.model = ctx.model →
      rwkv_get_logits_len ctx2 = rwkv_get_logits_len ctx ∧
      rwkv_get_state_len ctx2 = rwkv_get_state_len ctx) := by
  refine ⟨rfl, rfl, fun ctx2 h => ⟨?_, ?_⟩⟩
  · simp only [rwkv_get_logits_len, h]
  · simp only [rwkv_get_state_len, h]

/-- Concrete check of C9 at the sample v5 context and a re-threaded copy
sharing its model. -/
theorem rwkv_get_logits_len_spec_witness :
    rwkv_get_logits_len sampleCtxV5 = 65536 ∧
    rwkv_get_state_len
      { model := sampleCtxV5.model, n_threads := 8, last_used_sequence_length := 3 } =
      rwkv_get_state_len sampleCtxV5 :=
  ⟨(rwkv_get_logits_len_spec sampleCtxV5).2.1,
   ((rwkv_get_logits_len_spec sampleCtxV5).2.2
      { model := sampleCtxV5.model, n_threads := 8, last_used_sequence_length := 3 }
      rfl).2⟩

/-- The error-flag enumeration of the public header (`rwkv.h`, not under
`src/`; spec section 7 taxonomy). `RWKV_ERROR_NONE` is the no-error
value `src/rwkv.cpp` stores after a read (line 172). -/
inductive rwkv_error_flags where
  | RWKV_ERROR_NONE
  | RWKV_ERROR_ALLOC
  | RWKV_ERROR_CTX
  | RWKV_ERROR_MODEL
  | RWKV_ERROR_FILE
  | RWKV_ERROR_ARGS
  | RWKV_ERROR_GRAPH
  | RWKV_ERROR_DEVICE
deriving DecidableEq

/-- The mutable error slots `src/rwkv.cpp` addresses: `global_last_error`
(the process-wide slot, declared in `rwkv_error_handling.inc`) and each
context's own `last_error` field, here indexed by context id. -/
structure rwkv_error_state where
  global_last_error : rwkv_error_flags
  ctx_last_error : Nat → rwkv_error_flags

/-- The slot `rwkv_get_last_error` addresses (src/rwkv.cpp line 170):
the context's own slot when a context is passed, the process-wide slot
when `NULL` is passed. -/
def rwkv_error_slot (st : rwkv_error_state) (ctx : Option Nat) : rwkv_error_flags :=
  match ctx with
  | none => st.global_last_error
  | some cid => st.ctx_last_error cid

/-- Embedding of `rwkv_get_last_error` (src/rwkv.cpp lines 169-174):
read the addressed slot, store `RWKV_ERROR_NONE` into it, return the value
read together with the updated state. -/
def rwkv_get_last_error (st : rwkv_error_state) (ctx : Option Nat) :
    rwkv_error_flags × rwkv_error_state :=
  match ctx with
  | none =>
    (st.global_last_error,
     { st with global_last_error := rwkv_error_flags.RWKV_ERROR_NONE })
  | some cid =>
    (st.ctx_last_error cid,
     { st with ctx_last_error := fun i =>
        if i = cid then rwkv_error_flags.RWKV_ERROR_NONE else st.ctx_last_error i })

/-- C4: `rwkv_get_last_error` returns the current value of the addressed
slot (the context's own slot when a context is passed, the process-wide
slot when none is) and resets that slot to `RWKV_ERROR_NONE`, so two
consecutive calls with no intervening failure return the stored error and
then `RWKV_ERROR_NONE`; the slot it does not address is untouched. -/
theorem rwkv_get_last_error_spec (st : rwkv_error_state) (c : Option Nat) (cid j : Nat) :
    (rwkv_get_last_error st c).1 = rwkv_error_slot st c ∧
    (rwkv_get_last_error st none).1 = st.global_last_error ∧
    (rwkv_get_last_error st (some cid)).1 = st.ctx_last_error cid ∧
    rwkv_error_slot (rwkv_get_last_error st c).2 c = rwkv_error_flags.RWKV_ERROR_NONE ∧
    (rwkv_get_last_error (rwkv_get_last_error st c).2 c).1 =
      rwkv_error_flags.RWKV_ERROR_NONE ∧
    (rwkv_get_last_error st (some cid)).2.global_last_error = st.global_last_error ∧
    (rwkv_get_last_error st none).2.ctx_last_error j = st.ctx_last_error j := by
  refine ⟨?_, rfl, rfl, ?_, ?_, rfl, rfl⟩ <;>
    cases c <;> simp [rwkv_get_last_error, rwkv_error_slot]

/-- The outcomes of the fallible steps `rwkv_init_from_file` runs, supplied
as an environment: whether `new(std::nothrow) rwkv_context` succeeds,
whether `new(std::nothrow) rwkv_model` succeeds, whether
`rwkv_load_model_from_file` succeeds, and whether
`rwkv_measure_and_build_serial_context` succeeds. -/
structure rwkv_alloc_env where
  ctx_alloc_ok : Bool
  model_alloc_ok : Bool
  load_ok : Bool
  serial_graph_ok : Bool
deriving DecidableEq

/-- How a call to `rwkv_init_from_file` ends in the embedding. -/
inductive rwkv_init_result where
  | success
  | null_return
  | null_dereference
deriving DecidableEq

/-- Embedding of `rwkv_init_from_file` (src/rwkv.cpp lines 53-68). The
bodies of `RWKV_ASSERT_NULL_MSG` and `RWKV_ENSURE_OR_NULL` are in
`rwkv_error_handling.inc`, not under `src/`; modelled from the spec: any
construction failure releases partial allocations and makes the function
return a null handle. The control flow follows the source: the context
allocation is null-checked (line 57), but the model allocation at line 59
is immediately dereferenced by `ctx->model->reference_count++` at line 60
with no null check, so a failed model allocation is a null-pointer
dereference, not a null return. -/
def rwkv_init_from_file (env : rwkv_alloc_env) : rwkv_init_result :=
  if !env.ctx_alloc_ok then rwkv_init_result.null_return
  else if !env.model_alloc_ok then rwkv_init_result.null_dereference
  else if !env.load_ok then rwkv_init_result.null_return
  else if !env.serial_graph_ok then rwkv_init_result.null_return
  else rwkv_init_result.success

/-- C3 counterpoint: when the model allocation fails inside
`rwkv_init_from_file` (every other step fine), the call dereferences the
null model pointer instead of returning a null context handle, and every
failing environment that is handled gracefully is one where the model
allocation did not fail. -/
theorem rwkv_init_from_file_null_model_crash :
    rwkv_init_from_file
      { ctx_alloc_ok := true, model_alloc_ok := false,
        load_ok := true, serial_graph_ok := true } =
      rwkv_init_result.null_dereference ∧
    rwkv_init_from_file
      { ctx_alloc_ok := true, model_alloc_ok := false,
        load_ok := true, serial_graph_ok := true } ≠
      rwkv_init_result.null_return := by
  decide

/-- The heap state the context-lifecycle functions of `src/rwkv.cpp`
mutate: the live `rwkv_model` allocations (model id ↦ `reference_count`),
the live `rwkv_context` allocations (context id ↦ the model id its `model`
pointer holds), and allocators for fresh ids. -/
structure rwkv_world where
  models : Nat → Option Nat
  ctxs : List (Nat × Nat)
  next_model_id : Nat
  next_ctx_id : Nat

/-- The heap before any API call: nothing allocated. -/
def rwkv_world.empty : rwkv_world :=
  { models := fun _ => none, ctxs := [], next_model_id := 0, next_ctx_id := 0 }

/-- How many live contexts hold a reference to model `mid`. -/
def liveRefs (ctxs : List (Nat × Nat)) (mid : Nat) : Nat :=
  ctxs.countP (fun c => c.2 == mid)

/-- The model id a live context's `model` field points to, if the context
id is live. -/
def lookupCtx (w : rwkv_world) (cid : Nat) : Option Nat :=
  (w.ctxs.find? (fun c => c.1 == cid)).map Prod.snd

/-- Heap effect of a successful `rwkv_init_from_file` (src/rwkv.cpp lines
53-68): a fresh `rwkv_model` is allocated — its `reference_count` starts
at 0 and line 60 increments it to 1 — and a fresh context referencing it
is returned. -/
def rwkv_init_op (w : rwkv_world) : rwkv_world :=
  { models := fun i => if i = w.next_model_id then some 1 else w.models i,
    ctxs := (w.next_ctx_id, w.next_model_id) :: w.ctxs,
    next_model_id := w.next_model_id + 1,
    next_ctx_id := w.next_ctx_id + 1 }

/-- Heap effect of a successful `rwkv_clone_context` (src/rwkv.cpp lines
71-87): the clone shares the source context's model (line 75) and
increments its `reference_count` (line 76). A dead context id leaves the
heap unchanged (calling with such a handle is outside the API). -/
def rwkv_clone_context (w : rwkv_world) (cid : Nat) : rwkv_world :=
  match lookupCtx w cid with
  | none => w
  | some mid =>
    { models := fun i => if i = mid then (w.models i).map (· + 1) else w.models i,
      ctxs := (w.next_ctx_id, mid) :: w.ctxs,
      next_model_id := w.next_model_id,
      next_ctx_id := w.next_ctx_id + 1 }

/-- Embedding of `rwkv_free` (src/rwkv.cpp lines 137-155): a `NULL`
context is an immediate return (lines 138-140); otherwise
`--ctx->model->reference_count` runs and the model is deleted exactly when
the decremented count is 0 (lines 142-146), then the context itself is
deleted (line 154). A dead context id leaves the heap unchanged (freeing
such a handle twice is outside the API). -/
def rwkv_free (w : rwkv_world) (c : Option Nat) : rwkv_world :=
  match c with
  | none => w
  | some cid =>
    match lookupCtx w cid with
    | none => w
    | some mid =>
      { models := fun i =>
          if i = mid then
            match w.models i with
            | some rc => if rc - 1 = 0 then none else some (rc - 1)
            | none => none
          else w.models i,
        ctxs := w.ctxs.filter (fun c => !(c.1 == cid)),
        next_model_id := w.next_model_id,
        next_ctx_id := w.next_ctx_id }

/-- The reference-count invariant (spec sections 3 and 5): every live
model's `reference_count` equals the number of live contexts referencing
it and is positive (so a model is never destroyed while a referencing
context lives, and is gone once no context references it); every live
context points at a live model; ids at or above the allocators are free;
context ids are distinct. -/
def rwkv_ref_invariant (w : rwkv_world) : Prop :=
  (∀ mid rc, w.models mid = some rc → rc = liveRefs w.ctxs mid ∧ 0 < rc) ∧
  (∀ c ∈ w.ctxs,
    (w.models c.2).isSome = true ∧ c.1 < w.next_ctx_id ∧ c.2 < w.next_model_id) ∧
  (∀ mid, w.next_model_id ≤ mid → w.models mid = none) ∧
  w.ctxs.Pairwise (fun a b => a.1 ≠ b.1)

/-- One `src/rwkv.cpp` lifecycle call, as it affects the heap. -/
inductive rwkv_lifecycle_op where
  | init_ctx : rwkv_lifecycle_op
  | clone_ctx : Nat → rwkv_lifecycle_op
  | free_ctx : Option Nat → rwkv_lifecycle_op

/-- Apply one lifecycle call to the heap. -/
def rwkv_apply_op (w : rwkv_world) : rwkv_lifecycle_op → rwkv_world
  | rwkv_lifecycle_op.init_ctx => rwkv_init_op w
  | rwkv_lifecycle_op.clone_ctx cid => rwkv_clone_context w cid
  | rwkv_lifecycle_op.free_ctx c => rwkv_free w c

/-- Run a sequence of lifecycle calls. -/
def rwkv_run_ops (w : rwkv_world) : List rwkv_lifecycle_op → rwkv_world
  | [] => w
  | op :: rest => rwkv_run_ops (rwkv_apply_op w op) rest

lemma lookupCtx_some {w : rwkv_world} {cid mid : Nat}
    (h : lookupCtx w cid = some mid) :
    ∃ c ∈ w.ctxs, c.1 = cid ∧ c.2 = mid := by
  unfold lookupCtx at h
  cases hf : w.ctxs.find? (fun c => c.1 == cid) with
  | none => rw [hf] at h; simp at h
  | some c =>
    rw [hf] at h
    simp only [Option.map_some', Option.some.injEq] at h
    have hp := List.find?_some hf
    simp only [beq_iff_eq] at hp
    exact ⟨c, List.mem_of_find?_eq_some hf, hp, h⟩

lemma liveRefs_cons (a : Nat × Nat) (l : List (Nat × Nat)) (mid : Nat) :
    liveRefs (a :: l) mid = liveRefs l mid + (if a.2 = mid then 1 else 0) := by
  simp [liveRefs, List.countP_cons]

lemma liveRefs_eq_zero {l : List (Nat × Nat)} {n : Nat}
    (h : ∀ c ∈ l, c.2 ≠ n) : liveRefs l n = 0 := by
  simp only [liveRefs, List.countP_eq_zero]
  intro c hc
  simpa using h c hc

lemma liveRefs_pos {l : List (Nat × Nat)} {n : Nat} {c : Nat × Nat}
    (hc : c ∈ l) (h : c.2 = n) : 0 < liveRefs l n := by
  apply List.countP_pos_iff.mpr
  exact ⟨c, hc, by simp [h]⟩

lemma countP_erase_key (cid : Nat) (c0 : Nat × Nat) (p : Nat × Nat → Bool) :
    ∀ l : List (Nat × Nat), c0 ∈ l → c0.1 = cid →
      l.Pairwise (fun a b => a.1 ≠ b.1) →
      List.countP p (l.filter (fun c => !(c.1 == cid))) +
        (if p c0 then 1 else 0) = List.countP p l := by
  intro l
  induction l with
  | nil => intro hm; exact absurd hm (List.not_mem_nil c0)
  | cons a l ih =>
    intro hm hkey hpw
    rw [List.pairwise_cons] at hpw
    obtain ⟨ha, hl⟩ := hpw
    rcases List.mem_cons.mp hm with rfl | hm'
    · have hfa : (!(c0.1 == cid)) = false := by simp [hkey]
      have hrest : l.filter (fun c => !(c.1 == cid)) = l := by
        apply List.filter_eq_self.mpr
        intro b hb
        have : c0.1 ≠ b.1 := ha b hb
        simp only [Bool.not_eq_true', beq_eq_false_iff_ne, ne_eq]
        omega
      rw [List.filter_cons, if_neg (by simp [hfa]), hrest, List.countP_cons]
    · have hane : a.1 ≠ cid := by
        have := ha c0 hm'
        omega
      have hfa : (!(a.1 == cid)) = true := by
        simp only [Bool.not_eq_true', beq_eq_false_iff_ne, ne_eq]
        exact hane
      rw [List.filter_cons, if_pos (by simp [hfa]), List.countP_cons,
        List.countP_cons]
      have := ih hm' hkey hl
      cases hpa : p a <;> cases hpc : p c0 <;>
        simp only [hpa, hpc, if_true, if_false] at this ⊢ <;> omega

lemma rwkv_ref_invariant_empty : rwkv_ref_invariant rwkv_world.empty := by
  refine ⟨?_, ?_, ?_, ?_⟩ <;> simp [rwkv_world.empty]

lemma rwkv_init_op_invariant {w : rwkv_world} (h : rwkv_ref_invariant w) :
    rwkv_ref_invariant (rwkv_init_op w) := by
  obtain ⟨hrc, hctx, hfresh, hnd⟩ := h
  refine ⟨?_, ?_, ?_, ?_⟩
  · intro mid rc hm
    simp only [rwkv_init_op] at hm
    by_cases hi : mid = w.next_model_id
    · rw [if_pos hi] at hm
      injection hm with hm1
      subst hm1
      subst hi
      constructor
      · rw [rwkv_init_op]
        simp only
        rw [liveRefs_cons]
        have h0 : liveRefs w.ctxs w.next_model_id = 0 := by
          apply liveRefs_eq_zero
          intro c hc
          have := (hctx c hc).2.2
          omega
        simp [h0]
      · omega
    · rw [if_neg hi] at hm
      obtain ⟨hcount, hpos⟩ := hrc mid rc hm
      constructor
      · rw [rwkv_init_op]
        simp only
        rw [liveRefs_cons, if_neg (by simpa using Ne.symm hi)]
        omega
      · exact hpos
  · intro c hc
    simp only [rwkv_init_op, List.mem_cons] at hc ⊢
    rcases hc with rfl | hc
    · simp
    · have := hctx c hc
      constructor
      · by_cases hi : c.2 = w.next_model_id
        · simp [hi]
        · simpa [hi] using this.1
      · omega
  · intro mid hmid
    simp only [rwkv_init_op] at hmid ⊢
    rw [if_neg (by omega)]
    exact hfresh mid (by omega)
  · simp only [rwkv_init_op]
    rw [List.pairwise_cons]
    refine ⟨?_, hnd⟩
    intro c hc
    have := (hctx c hc).2.1
    simp only
    omega

lemma rwkv_clone_context_invariant {w : rwkv_world} (cid : Nat)
    (h : rwkv_ref_invariant w) : rwkv_ref_invariant (rwkv_clone_context w cid) := by
  obtain ⟨hrc, hctx, hfresh, hnd⟩ := h
  unfold rwkv_clone_context
  split
  · exact ⟨hrc, hctx, hfresh, hnd⟩
  · rename_i mid hl
    obtain ⟨c0, hc0mem, hc0key, hc0mid⟩ := lookupCtx_some hl
    obtain ⟨hlive, hc0lt, hmidlt⟩ := hctx c0 hc0mem
    rw [hc0mid] at hlive hmidlt
    obtain ⟨rc0, hrc0⟩ := Option.isSome_iff_exists.mp hlive
    obtain ⟨hcnt0, hpos0⟩ := hrc mid rc0 hrc0
    refine ⟨?_, ?_, ?_, ?_⟩
    · intro i rc hm
      dsimp only at hm ⊢
      by_cases hi : i = mid
      · subst hi
        rw [if_pos rfl, hrc0, Option.map_some'] at hm
        injection hm with hm1
        rw [liveRefs_cons]
        dsimp only
        rw [if_pos rfl]
        omega
      · rw [if_neg hi] at hm
        obtain ⟨hcnt, hpos⟩ := hrc i rc hm
        rw [liveRefs_cons]
        dsimp only
        rw [if_neg (Ne.symm hi)]
        omega
    · intro c hc
      dsimp only at hc ⊢
      rcases List.mem_cons.mp hc with rfl | hc
      · dsimp only
        refine ⟨?_, by omega, hmidlt⟩
        rw [if_pos rfl, hrc0, Option.map_some']
        rfl
      · obtain ⟨hs, hlt1, hlt2⟩ := hctx c hc
        refine ⟨?_, by omega, hlt2⟩
        by_cases hi : c.2 = mid
        · rw [hi, if_pos rfl, hrc0, Option.map_some']
          rfl
        · rw [if_neg hi]
          exact hs
    · intro i hi
      dsimp only at hi ⊢
      rw [if_neg (by omega : i ≠ mid), hfresh i hi]
    · dsimp only
      rw [List.pairwise_cons]
      refine ⟨?_, hnd⟩
      intro c hc
      have := (hctx c hc).2.1
      dsimp only
      omega

lemma liveRefs_erase_key {l : List (Nat × Nat)} {c0 : Nat × Nat} {cid : Nat}
    (hm : c0 ∈ l) (hkey : c0.1 = cid)
    (hnd : l.Pairwise (fun a b => a.1 ≠ b.1)) (i : Nat) :
    liveRefs (l.filter (fun c => !(c.1 == cid))) i + (if c0.2 = i then 1 else 0) =
      liveRefs l i := by
  have h := countP_erase_key cid c0 (fun x => x.2 == i) l hm hkey hnd
  by_cases hc : c0.2 = i
  · rw [if_pos (by simp [hc])] at h
    rw [if_pos hc]
    exact h
  · rw [if_neg (by simp [hc])] at h
    rw [if_neg hc]
    exact h

lemma rwkv_free_invariant {w : rwkv_world} (c : Option Nat)
    (h : rwkv_ref_invariant w) : rwkv_ref_invariant (rwkv_free w c) := by
  obtain ⟨hrc, hctx, hfresh, hnd⟩ := h
  unfold rwkv_free
  split
  · exact ⟨hrc, hctx, hfresh, hnd⟩
  · rename_i cid
    split
    · exact ⟨hrc, hctx, hfresh, hnd⟩
    · rename_i mid hl
      obtain ⟨c0, hc0mem, hc0key, hc0mid⟩ := lookupCtx_some hl
      obtain ⟨hlive, hc0lt, hmidlt⟩ := hctx c0 hc0mem
      rw [hc0mid] at hlive hmidlt
      obtain ⟨rc0, hrc0⟩ := Option.isSome_iff_exists.mp hlive
      obtain ⟨hcnt0, hpos0⟩ := hrc mid rc0 hrc0
      have hmain := liveRefs_erase_key hc0mem hc0key hnd mid
      rw [if_pos hc0mid] at hmain
      refine ⟨?_, ?_, ?_, ?_⟩
      · intro i rc hm
        dsimp only at hm ⊢
        by_cases hi : i = mid
        · subst hi
          rw [if_pos rfl, hrc0] at hm
          dsimp only at hm
          by_cases hz : rc0 - 1 = 0
          · rw [if_pos hz] at hm
            exact absurd hm (by simp)
          · rw [if_neg hz] at hm
            injection hm with hm1
            omega
        · rw [if_neg hi] at hm
          obtain ⟨hcnt, hpos⟩ := hrc i rc hm
          have hother := liveRefs_erase_key hc0mem hc0key hnd i
          rw [if_neg (by omega : ¬ c0.2 = i)] at hother
          omega
      · intro x hx
        dsimp only at hx ⊢
        obtain ⟨hxmem, hxpred⟩ := List.mem_filter.mp hx
        obtain ⟨hs, hlt1, hlt2⟩ := hctx x hxmem
        refine ⟨?_, hlt1, hlt2⟩
        by_cases hxi : x.2 = mid
        · have hpos2 : 0 < liveRefs (w.ctxs.filter (fun c => !(c.1 == cid))) mid :=
            liveRefs_pos hx hxi
          rw [hxi, if_pos rfl, hrc0]
          dsimp only
          rw [if_neg (by omega : ¬ rc0 - 1 = 0)]
          rfl
        · rw [if_neg hxi]
          exact hs
      · intro i hi
        dsimp only at hi ⊢
        rw [if_neg (by omega : ¬ i = mid), hfresh i hi]
      · dsimp only
        exact List.Pairwise.sublist (List.filter_sublist w.ctxs) hnd

lemma rwkv_run_ops_invariant (ops : List rwkv_lifecycle_op) :
    ∀ w : rwkv_world, rwkv_ref_invariant w →
      rwkv_ref_invariant (rwkv_run_ops w ops) := by
  induction ops with
  | nil => intro w h; exact h
  | cons op rest ih =>
    intro w h
    apply ih
    cases op with
    | init_ctx => exact rwkv_init_op_invariant h
    | clone_ctx cid => exact rwkv_clone_context_invariant cid h
    | free_ctx c => exact rwkv_free_invariant c h

/-- C5: along every sequence of lifecycle calls starting from the empty
heap, each live model's `reference_count` equals the number of live
contexts referencing it and is positive (`rwkv_init_op` creates the model
at count 1, `rwkv_clone_context` increments, `rwkv_free` decrements), every
live context points at a still-live model (the model is never destroyed
while a referencing context lives), and freeing a live context destroys
its model exactly when that model's count — the number of its live
contexts — is 1, i.e. exactly when the count reaches zero. -/
theorem rwkv_reference_count_spec (ops : List rwkv_lifecycle_op) :
    rwkv_ref_invariant (rwkv_run_ops rwkv_world.empty ops) ∧
    (∀ cid mid,
      lookupCtx (rwkv_run_ops rwkv_world.empty ops) cid = some mid →
      ((rwkv_free (rwkv_run_ops rwkv_world.empty ops) (some cid)).models mid = none ↔
        (rwkv_run_ops rwkv_world.empty ops).models mid = some 1)) := by
  have hinv := rwkv_run_ops_invariant ops rwkv_world.empty rwkv_ref_invariant_empty
  refine ⟨hinv, ?_⟩
  intro cid mid hl
  obtain ⟨hrc, hctx, hfresh, hnd⟩ := hinv
  obtain ⟨c0, hc0mem, hc0key, hc0mid⟩ := lookupCtx_some hl
  have hlive := (hctx c0 hc0mem).1
  rw [hc0mid] at hlive
  obtain ⟨rc0, hrc0⟩ := Option.isSome_iff_exists.mp hlive
  have hpos := (hrc mid rc0 hrc0).2
  unfold rwkv_free
  dsimp only
  rw [hl]
  dsimp only
  rw [if_pos rfl, hrc0]
  dsimp only
  rcases Nat.lt_or_ge 1 rc0 with hgt | hle
  · rw [if_neg (by omega : ¬ rc0 - 1 = 0)]
    constructor
    · intro hh
      exact absurd hh (by simp)
    · intro hh
      injection hh with hh1
      exact absurd hh1 (by omega)
  · have h1 : rc0 = 1 := by omega
    subst h1
    rw [if_pos rfl]
    simp

/-- C10: `rwkv_free` called with a `NULL` context handle (src/rwkv.cpp
lines 138-140) returns immediately: nothing is deallocated and no heap
state is mutated. -/
theorem rwkv_free_null_spec (w : rwkv_world) : rwkv_free w none = w := rfl

/-- Modelled from the spec: `rwkv_graph.inc` and `rwkv_eval.inc` are not
under `src/`. The multi-step graph is an unrolled chain of single-step
blocks sharing one threaded-through state buffer; tokens are processed
strictly in order, each block feeding its output state into the next, and
the graph outputs the final state together with the last block's logits.
`step` is the single-step block `(state, token) ↦ (next state, logits)`. -/
def rwkv_sequence_graph {S L : Type} (step : S → Nat → S × L) :
    List Nat → S → S × Option L
  | [], s => (s, none)
  | [t], s => ((step s t).1, some (step s t).2)
  | t :: t2 :: rest, s => rwkv_sequence_graph step (t2 :: rest) (step s t).1

/-- Evaluating tokens one at a time with the single-step evaluator,
threading each call's output state into the next call; returns the final
state and the last call's logits. -/
def rwkv_eval_loop {S L : Type} (step : S → Nat → S × L)
    (tokens : List Nat) (s : S) : S × Option L :=
  tokens.foldl (fun acc t => ((step acc.1 t).1, some (step acc.1 t).2)) (s, none)

lemma rwkv_eval_loop_aux {S L : Type} (step : S → Nat → S × L) :
    ∀ ts : List Nat, ts ≠ [] → ∀ (s : S) (acc : Option L),
      List.foldl (fun acc t => ((step acc.1 t).1, some (step acc.1 t).2))
          (s, acc) ts =
        rwkv_sequence_graph step ts s := by
  intro ts
  induction ts with
  | nil => intro h; exact absurd rfl h
  | cons t rest ih =>
    intro _ s acc
    cases rest with
    | nil => rfl
    | cons t2 rest2 =>
      rw [List.foldl_cons]
      exact ih (by simp) ((step s t).1) (some (step s t).2)

/-- C2: for every single-step block, every initial state and every token
sequence of length at least 1, evaluating the tokens one at a time while
threading the output state into the next call yields exactly the same
final state and the same final logits as the single multi-step call that
chains the same blocks in order. -/
theorem rwkv_eval_sequence_equiv {S L : Type} (step : S → Nat → S × L)
    (tokens : List Nat) (s : S) (hk : tokens ≠ []) :
    rwkv_eval_loop step tokens s = rwkv_sequence_graph step tokens s :=
  rwkv_eval_loop_aux step tokens hk s none

/-- Concrete check of C2: a three-token sequence under an arithmetic
single-step block over `Nat` states. -/
theorem rwkv_eval_sequence_equiv_witness :
    rwkv_eval_loop (fun s t => (2 * s + t, s + t)) [3, 5, 7] 1 =
      rwkv_sequence_graph (fun s t => (2 * s + t, s + t)) [3, 5, 7] 1 :=
  rwkv_eval_sequence_equiv (fun s t => (2 * s + t, s + t)) [3, 5, 7] 1 (by decide)

/-- The multi-step graph bookkeeping of a context: the token length the
current sequential graph was built for (the `last_used_sequence_length`
field that src/rwkv.cpp line 150 checks), the identity of the held graph,
and a counter supplying fresh identities for rebuilds. -/
structure rwkv_sequential_graph_state where
  last_used_sequence_length : Nat
  graph_id : Nat
  next_graph_id : Nat
deriving DecidableEq

/-- Modelled from the spec: `rwkv_eval.inc` is not under `src/`. Serving a
multi-step request of `sequence_len` tokens rebuilds the sequential graph
— replacing the held graph by a fresh build and recording the new length —
exactly when `sequence_len` differs from the length the current graph was
built for; otherwise the request reuses the existing graph unchanged. -/
def rwkv_eval_sequence_graph_update (st : rwkv_sequential_graph_state)
    (sequence_len : Nat) : rwkv_sequential_graph_state :=
  if sequence_len ≠ st.last_used_sequence_length then
    { last_used_sequence_length := sequence_len,
      graph_id := st.next_graph_id,
      next_graph_id := st.next_graph_id + 1 }
  else
    st

/-- C7: a multi-step request of length `L` replaces the context's
sequential graph (the held graph identity changes) if and only if `L`
differs from the context's last-built length; a request of the current
length leaves the graph state entirely unchanged; after any request the
recorded length is `L`. -/
theorem rwkv_sequence_graph_rebuild_spec (st : rwkv_sequential_graph_state)
    (L : Nat) (hfresh : st.graph_id < st.next_graph_id) :
    ((rwkv_eval_sequence_graph_update st L).graph_id ≠ st.graph_id ↔
      L ≠ st.last_used_sequence_length) ∧
    (L = st.last_used_sequence_length →
      rwkv_eval_sequence_graph_update st L = st) ∧
    (rwkv_eval_sequence_graph_update st L).last_used_sequence_length = L := by
  unfold rwkv_eval_sequence_graph_update
  by_cases h : L = st.last_used_sequence_length
  · rw [if_neg (by omega : ¬ L ≠ st.last_used_sequence_length)]
    refine ⟨?_, fun _ => rfl, by omega⟩
    constructor
    · intro hh
      exact absurd rfl hh
    · intro hh
      exact absurd h hh
  · rw [if_pos h]
    dsimp only
    refine ⟨?_, fun hh => absurd hh h, rfl⟩
    constructor
    · intro _
      exact h
    · intro _
      omega

/-- Concrete check of C7: with a graph built for length 4, a request of
length 7 changes the held graph and a request of length 4 changes
nothing. -/
theorem rwkv_sequence_graph_rebuild_spec_witness :
    (rwkv_eval_sequence_graph_update ⟨4, 0, 1⟩ 7).graph_id ≠
      (⟨4, 0, 1⟩ : rwkv_sequential_graph_state).graph_id ∧
    rwkv_eval_sequence_graph_update ⟨4, 0, 1⟩ 4 =
      (⟨4, 0, 1⟩ : rwkv_sequential_graph_state) :=
  ⟨(rwkv_sequence_graph_rebuild_spec ⟨4, 0, 1⟩ 7 (by decide)).1.mpr (by decide),
   (rwkv_sequence_graph_rebuild_spec ⟨4, 0, 1⟩ 4 (by decide)).2.1 rfl⟩

/-- Modelled from the spec: `rwkv_eval.inc` is not under `src/`. An
evaluate call validates its buffers before doing anything else: the
supplied state buffers must have exactly the model's derived state length
and the logits buffer exactly the vocabulary size; violating either
reports `RWKV_ERROR_ARGS` and returns without executing the graph,
leaving the caller's output buffers as they were. `run` stands for
executing the built graph on the input state (producing the next state
and the logits); buffer elements are abstract (`V`). -/
def rwkv_eval_checked {V : Type} (ctx : rwkv_context)
    (run : List V → List V × List V)
    (state_in state_out logits_out : List V) :
    rwkv_error_flags × List V × List V :=
  if state_in.length ≠ rwkv_get_state_len ctx ∨
     state_out.length ≠ rwkv_get_state_len ctx ∨
     logits_out.length ≠ rwkv_get_logits_len ctx then
    (rwkv_error_flags.RWKV_ERROR_ARGS, state_out, logits_out)
  else
    ((rwkv_error_flags.RWKV_ERROR_NONE, (run state_in).1, (run state_in).2))

/-- C8: when the supplied state buffer's length differs from the model's
derived state length, or the logits buffer's length differs from the
vocabulary size, the evaluate call reports `RWKV_ERROR_ARGS` and returns
the caller's output buffers unchanged; the result does not depend on the
graph at all (it never executes); and the same context accepts a
corrected retry: with correctly sized buffers the call reports
`RWKV_ERROR_NONE`. -/
theorem rwkv_eval_arg_check_spec {V : Type} (ctx : rwkv_context)
    (run : List V → List V × List V) (state_in state_out logits_out : List V)
    (hbad : state_in.length ≠ rwkv_get_state_len ctx ∨
            logits_out.length ≠ rwkv_get_logits_len ctx) :
    rwkv_eval_checked ctx run state_in state_out logits_out =
      (rwkv_error_flags.RWKV_ERROR_ARGS, state_out, logits_out) ∧
    (∀ run2 : List V → List V × List V,
      rwkv_eval_checked ctx run2 state_in state_out logits_out =
        rwkv_eval_checked ctx run state_in state_out logits_out) ∧
    (∀ si so lo : List V,
      si.length = rwkv_get_state_len ctx →
      so.length = rwkv_get_state_len ctx →
      lo.length = rwkv_get_logits_len ctx →
      (rwkv_eval_checked ctx run si so lo).1 =
        rwkv_error_flags.RWKV_ERROR_NONE) := by
  have hcond : state_in.length ≠ rwkv_get_state_len ctx ∨
      state_out.length ≠ rwkv_get_state_len ctx ∨
      logits_out.length ≠ rwkv_get_logits_len ctx := by
    rcases hbad with h | h
    · exact Or.inl h
    · exact Or.inr (Or.inr h)
  refine ⟨?_, ?_, ?_⟩
  · unfold rwkv_eval_checked
    rw [if_pos hcond]
  · intro run2
    unfold rwkv_eval_checked
    rw [if_pos hcond, if_pos hcond]
  · intro si so lo hsi hso hlo
    unfold rwkv_eval_checked
    rw [if_neg (by simp [hsi, hso, hlo])]

/-- Concrete check of C8: empty buffers are rejected with
`RWKV_ERROR_ARGS` and returned unchanged on the sample v5 context. -/
theorem rwkv_eval_arg_check_spec_witness :
    rwkv_eval_checked sampleCtxV5 (fun s => (s, s)) ([] : List Nat) [] [] =
      (rwkv_error_flags.RWKV_ERROR_ARGS, [], []) :=
  (rwkv_eval_arg_check_spec sampleCtxV5 (fun s => (s, s)) [] [] []
    (Or.inl (by decide))).1
